import Mathlib

/-!
Verification development for the `scribe` repository: a streaming medical
transcription app.  The relevant source files are
`src/app/api/soap/route.ts` (SOAP generation endpoint, streaming GET and
plain POST), `src/app/api/audio/route.ts` (transcription endpoint),
`src/app/page.tsx` (transcript state), and the two recorder components
`AudioRecorder.tsx` / `SimpleAudioRecorder.tsx`.

The development shallowly embeds the code paths the claims are about:

* The GET /api/soap token loop appends each streamed token to a buffer and
  calls the JavaScript builtin `JSON.parse` on the buffer, discarding the
  parsed value and using only success/failure to decide whether to emit the
  buffer as a candidate document.  `JSON.parse` is external to the
  repository; it is modelled here as a character-level acceptor `jsonOk`
  that walks the ECMA-404 JSON grammar (objects, arrays, strings with
  escapes, numbers, literals, whitespace) one character at a time.
* The POST handlers, the transcript accumulation, the debounce gate and the
  note validation/defaulting are embedded as pure functions over explicit
  state.
-/

set_option maxRecDepth 8192

namespace Scribe

/-! ### Model of `JSON.parse` as an acceptor

`JSON.parse(s)` succeeds exactly when `s` is optional whitespace, followed
by one JSON value, followed by optional whitespace.  The machine below
consumes one character per step.  `Mode` is the scanner mode, `Frame` the
stack of open containers. -/

/-- JSON whitespace (ECMA-404: space, tab, line feed, carriage return). -/
def isWs (c : Char) : Bool := c = ' ' || c = '\t' || c = '\n' || c = '\r'

/-- Hex digit, as allowed after a `\u` escape in a JSON string. -/
def isHex (c : Char) : Bool :=
  c.isDigit || ('a' ≤ c && c ≤ 'f') || ('A' ≤ c && c ≤ 'F')

/-- Single-character escapes allowed after a backslash in a JSON string. -/
def isEsc (c : Char) : Bool :=
  c = '"' || c = '\\' || c = '/' || c = 'b' || c = 'f' || c = 'n' || c = 'r' || c = 't'

/-- Scanner state inside a JSON string literal. -/
inductive SScan where
  | norm | esc | hex4 | hex3 | hex2 | hex1
deriving DecidableEq, Repr

/-- State of the JSON number DFA (grammar `-?(0|[1-9][0-9]*)(\.[0-9]+)?([eE][+-]?[0-9]+)?`). -/
inductive NumSt where
  | sign | zero | digs | dot | frac | eMark | eSign | eDigs
deriving DecidableEq, Repr

/-- Number states after which the number lexeme read so far is complete. -/
def numAccept : NumSt → Bool
  | .zero => true
  | .digs => true
  | .frac => true
  | .eDigs => true
  | _ => false

/-- One step of the string scanner: `some (some st)` continues, `some none`
closes the string, `none` is a lexical error. -/
def strTrans : SScan → Char → Option (Option SScan)
  | .norm, c =>
      if c = '"' then some none
      else if c = '\\' then some (some .esc)
      else if c.toNat < 32 then none
      else some (some .norm)
  | .esc, c =>
      if c = 'u' then some (some .hex4)
      else if isEsc c then some (some .norm)
      else none
  | .hex4, c => if isHex c then some (some .hex3) else none
  | .hex3, c => if isHex c then some (some .hex2) else none
  | .hex2, c => if isHex c then some (some .hex1) else none
  | .hex1, c => if isHex c then some (some .norm) else none

/-- One step of the number DFA; `none` means `c` does not extend the lexeme. -/
def numTrans : NumSt → Char → Option NumSt
  | .sign, c => if c = '0' then some .zero else if c.isDigit then some .digs else none
  | .zero, c => if c = '.' then some .dot else if c = 'e' || c = 'E' then some .eMark else none
  | .digs, c =>
      if c.isDigit then some .digs
      else if c = '.' then some .dot
      else if c = 'e' || c = 'E' then some .eMark
      else none
  | .dot, c => if c.isDigit then some .frac else none
  | .frac, c =>
      if c.isDigit then some .frac
      else if c = 'e' || c = 'E' then some .eMark
      else none
  | .eMark, c =>
      if c.isDigit then some .eDigs
      else if c = '+' || c = '-' then some .eSign
      else none
  | .eSign, c => if c.isDigit then some .eDigs else none
  | .eDigs, c => if c.isDigit then some .eDigs else none

/-- An open container on the parse stack. -/
inductive Frame where
  | objF | arrF
deriving DecidableEq, Repr

/-- Scanner mode between characters. -/
inductive Mode where
  | value                  -- expecting the start of a value
  | objFirst               -- just after an opening brace: key or closing brace
  | objKey                 -- after a comma inside an object: key required
  | colon                  -- after a key string: expecting the colon
  | arrFirst               -- just after an opening bracket: value or closing bracket
  | keyStr (st : SScan)    -- inside a key string
  | valStr (st : SScan)    -- inside a value string
  | num (st : NumSt)       -- inside a number lexeme
  | lit (rest : List Char) -- inside true/false/null, with the characters still expected
  | afterValue             -- a complete value has just ended
  | dead                   -- the input can no longer be a JSON text
deriving DecidableEq, Repr

/-- Full machine state. -/
structure PState where
  mode : Mode
  stack : List Frame
deriving DecidableEq, Repr

/-- Dispatch on the first character of a value. -/
def startValue (stk : List Frame) (c : Char) : PState :=
  if c = '\x7b' then ⟨.objFirst, .objF :: stk⟩
  else if c = '[' then ⟨.arrFirst, .arrF :: stk⟩
  else if c = '"' then ⟨.valStr .norm, stk⟩
  else if c = 't' then ⟨.lit ['r', 'u', 'e'], stk⟩
  else if c = 'f' then ⟨.lit ['a', 'l', 's', 'e'], stk⟩
  else if c = 'n' then ⟨.lit ['u', 'l', 'l'], stk⟩
  else if c = '-' then ⟨.num .sign, stk⟩
  else if c = '0' then ⟨.num .zero, stk⟩
  else if c.isDigit then ⟨.num .digs, stk⟩
  else ⟨.dead, stk⟩

/-- Process a non-whitespace character arriving after a complete value:
either a separator/closer for the innermost container, or an error. -/
def closeStep (stk : List Frame) (c : Char) : PState :=
  match stk with
  | [] => ⟨.dead, []⟩
  | .objF :: rest =>
      if c = ',' then ⟨.objKey, .objF :: rest⟩
      else if c = '\x7d' then ⟨.afterValue, rest⟩
      else ⟨.dead, .objF :: rest⟩
  | .arrF :: rest =>
      if c = ',' then ⟨.value, .arrF :: rest⟩
      else if c = ']' then ⟨.afterValue, rest⟩
      else ⟨.dead, .arrF :: rest⟩

/-- Process any character arriving after a complete value. -/
def afterStep (stk : List Frame) (c : Char) : PState :=
  if isWs c then ⟨.afterValue, stk⟩ else closeStep stk c

/-- One step of the JSON acceptor. -/
def step (s : PState) (c : Char) : PState :=
  match s.mode with
  | .dead => ⟨.dead, s.stack⟩
  | .value => if isWs c then s else startValue s.stack c
  | .objFirst =>
      if isWs c then s
      else if c = '"' then ⟨.keyStr .norm, s.stack⟩
      else if c = '\x7d' then
        match s.stack with
        | .objF :: rest => ⟨.afterValue, rest⟩
        | _ => ⟨.dead, s.stack⟩
      else ⟨.dead, s.stack⟩
  | .objKey =>
      if isWs c then s
      else if c = '"' then ⟨.keyStr .norm, s.stack⟩
      else ⟨.dead, s.stack⟩
  | .colon =>
      if isWs c then s
      else if c = ':' then ⟨.value, s.stack⟩
      else ⟨.dead, s.stack⟩
  | .arrFirst =>
      if isWs c then s
      else if c = ']' then
        match s.stack with
        | .arrF :: rest => ⟨.afterValue, rest⟩
        | _ => ⟨.dead, s.stack⟩
      else startValue s.stack c
  | .keyStr st =>
      match strTrans st c with
      | some (some st') => ⟨.keyStr st', s.stack⟩
      | some none => ⟨.colon, s.stack⟩
      | none => ⟨.dead, s.stack⟩
  | .valStr st =>
      match strTrans st c with
      | some (some st') => ⟨.valStr st', s.stack⟩
      | some none => ⟨.afterValue, s.stack⟩
      | none => ⟨.dead, s.stack⟩
  | .num st =>
      match numTrans st c with
      | some st' => ⟨.num st', s.stack⟩
      | none => if numAccept st then afterStep s.stack c else ⟨.dead, s.stack⟩
  | .lit rest =>
      match rest with
      | [] => ⟨.dead, s.stack⟩
      | r :: rs =>
          if c = r then
            if rs.isEmpty then ⟨.afterValue, s.stack⟩ else ⟨.lit rs, s.stack⟩
          else ⟨.dead, s.stack⟩
  | .afterValue => afterStep s.stack c

/-- Initial state: expecting a value at top level. -/
def initSt : PState := ⟨.value, []⟩

/-- Run the acceptor over a character list. -/
def runScan (cs : List Char) : PState := cs.foldl step initSt

/-- Final states in which the whole input is a valid JSON text: a complete
value with no open containers (a top-level number is complete when its DFA
state accepts). -/
def accepts : PState → Bool
  | ⟨.afterValue, []⟩ => true
  | ⟨.num st, []⟩ => numAccept st
  | _ => false

/-- Model of `JSON.parse(s)` succeeding (the GET /api/soap loop only uses
success/failure of the parse, never the parsed value). -/
def jsonOk (s : String) : Bool := accepts (runScan s.data)

/-! ### The streaming document assembler (GET /api/soap token loop)

From `src/app/api/soap/route.ts`: each streamed chunk's `content` (empty
contents are skipped) is appended to `accumulatedJson`; `JSON.parse` is
attempted on the buffer; on success the buffer is enqueued as a `data:`
candidate; on failure the loop silently continues. -/

/-- One iteration of the token loop: state is (accumulatedJson, candidates emitted so far). -/
def assembleStep (st : String × List String) (content : String) : String × List String :=
  if content = "" then st
  else
    let accumulatedJson := st.1 ++ content
    if jsonOk accumulatedJson then (accumulatedJson, st.2 ++ [accumulatedJson])
    else (accumulatedJson, st.2)

/-- The candidate documents emitted for a full token stream. -/
def candidates (tokens : List String) : List String :=
  (tokens.foldl assembleStep (("" : String), ([] : List String))).2

/-! ### The Note data model (src/app/types, as used by both recorders) -/

/-- Note metadata, mirroring the `metadata` object the endpoints build. -/
structure SoapMetadata where
  patient_name : Option String
  clinician_name : Option String
  visit_datetime : String
  chief_complaint : Option String
  medications_list : List String
deriving DecidableEq, Repr

/-- A committed SOAP note (`SOAPNoteType`). -/
structure SOAPNote where
  metadata : SoapMetadata
  subjective : String
  objective : String
  assessment : String
  plan : String
  diff : List String
deriving DecidableEq, Repr

/-- The default metadata object built inline in `route.ts` when the request
carries none (`new Date().toISOString()` is passed in as `now`). -/
def defaultMetadata (now : String) : SoapMetadata :=
  { patient_name := none
  , clinician_name := none
  , visit_datetime := now
  , chief_complaint := none
  , medications_list := [] }

/-! ### POST /api/soap (src/app/api/soap/route.ts, POST handler) -/

/-- The `fallbackNote` of the POST handler: a hard-coded clinical narrative
returned with status 200 whenever the OpenAI call (or parsing its reply)
throws. -/
def postFallbackNote (metadata : Option SoapMetadata) (now : String) : SOAPNote :=
  { metadata := metadata.getD (defaultMetadata now)
  , subjective := "Patient reports chest pain for the past two days. Describes the pain as pressure-like and rates it 6/10 in severity. Pain is worse with exertion and improves with rest. No radiation to jaw or arm. Reports mild shortness of breath. No history of heart disease, but has hypertension controlled with lisinopril."
  , objective := "Vitals: BP 130/85, HR 75 bpm, Temp 98.6°F. Lungs clear to auscultation. Regular heart rate and rhythm. No murmurs, rubs or gallops. No peripheral edema."
  , assessment := "1. Chest pain, likely musculoskeletal in origin based on characteristics and lack of cardiac risk factors\n2. Hypertension, well-controlled on current medication"
  , plan := "1. ECG to rule out cardiac etiology\n2. Continue current medications\n3. Ibuprofen 600mg TID PRN for pain\n4. Follow up in one week if symptoms persist\n5. Return immediately if pain worsens or new symptoms develop"
  , diff := [("Initial SOAP note generated")] }

/-- Outcome of the OpenAI chat-completion call made by the POST handler. -/
inductive SoapOracle where
  | success (content : String)
  | failure
deriving DecidableEq, Repr

/-- Body of a POST /api/soap response. -/
inductive SoapBody where
  | error (msg : String)
  | json (raw : String)
  | note (n : SOAPNote)
deriving DecidableEq, Repr

/-- JavaScript falsiness of the `transcript` field (`if (!transcript)`):
missing or empty string. -/
def isFalsyStr (v : Option String) : Bool :=
  match v with
  | none => true
  | some s => s = ""

/-- The POST /api/soap handler: status code and body as a function of the
request fields, the configured API key, and the oracle outcome.  On oracle
failure (or un-parsable oracle content) it returns 200 with
`postFallbackNote`; it never returns a failure-shaped body for a failed
generation. -/
def soapPost (transcript : Option String) (apiKey : Option String)
    (metadata : Option SoapMetadata) (now : String) (oracle : SoapOracle) :
    Nat × SoapBody :=
  if isFalsyStr transcript then (400, .error ("Missing transcript"))
  else
    match apiKey with
    | none => (500, .error ("Configuration error: Missing OpenAI API key"))
    | some _ =>
        match oracle with
        | .success content =>
            if jsonOk content then (200, .json content)
            else (200, .note (postFallbackNote metadata now))
        | .failure => (200, .note (postFallbackNote metadata now))

/-! ### GET /api/soap event stream -/

/-- The `fallbackNote` of the GET handler (placeholder sections), streamed
as a `data:` event when the OpenAI streaming call throws. -/
def getFallbackNote (now : String) : SOAPNote :=
  { metadata := defaultMetadata now
  , subjective := "[Waiting for transcript processing]"
  , objective := "[Waiting for transcript processing]"
  , assessment := "[Waiting for transcript processing]"
  , plan := "[Waiting for transcript processing]"
  , diff := [("Initial SOAP note generated")] }

/-- Behaviour of the generation oracle's stream: a list of token contents,
or a transport-level failure of the call. -/
inductive OracleStream where
  | tokens (ts : List String)
  | failure
deriving DecidableEq, Repr

/-- Server-sent events emitted by the GET handler. -/
inductive SSE where
  | data (accumulatedJson : String)
  | dataNote (note : SOAPNote)
  | done
deriving DecidableEq, Repr

/-- The event sequence the GET handler streams: each successful speculative
parse of the accumulated buffer yields a `data` event, then a `done` event;
on oracle failure the fallback note is sent as a `data` event followed by
`done`. -/
def soapStreamEvents (now : String) (oracle : OracleStream) : List SSE :=
  match oracle with
  | .tokens ts => (candidates ts).map SSE.data ++ [SSE.done]
  | .failure => [SSE.dataNote (getFallbackNote now), SSE.done]

/-! ### Transcript accumulation (src/app/page.tsx and AudioRecorder.tsx)

`handleTranscriptUpdate` in page.tsx is
`setTranscript(prev => prev + " " + newTranscript)`, and
`sendAudioForTranscription` in AudioRecorder.tsx likewise appends
`' ' + data.transcript` to `pendingTranscript` in arrival order.  Neither
keeps a sequence index. -/

/-- One transcript update as performed by the code: append in arrival
order, prefixed by a single space. -/
def handleTranscriptUpdate (prev newTranscript : String) : String :=
  prev ++ (" ") ++ newTranscript

/-- The transcript state after a list of updates delivered in arrival
order, starting from the empty string. -/
def pageTranscript (updates : List String) : String :=
  updates.foldl handleTranscriptUpdate ("")

/-- Insert a (sequenceIndex, text) segment into an index-sorted list. -/
def insertSeg (x : Nat × String) : List (Nat × String) → List (Nat × String)
  | [] => [x]
  | y :: ys => if x.1 ≤ y.1 then x :: y :: ys else y :: insertSeg x ys

/-- Sort segments by sequenceIndex (insertion sort). -/
def sortSegs (l : List (Nat × String)) : List (Nat × String) :=
  l.foldr insertSeg []

/-- Remove leading and trailing whitespace (char-level `trim`). -/
def trimWs (s : String) : String :=
  ⟨((s.data.dropWhile isWs).reverse.dropWhile isWs).reverse⟩

/-- Modelled from the spec: the `currentText()` the spec ascribes to
`TranscriptAccumulator` — the segments' texts concatenated in
sequenceIndex order, separated by a single space and trimmed.  No such
index-ordered accumulator exists in the source; this definition exists only
to compare the spec's words against `pageTranscript`. -/
def specCurrentText (segs : List (Nat × String)) : String :=
  trimWs (String.intercalate (" ") ((sortSegs segs).map Prod.snd))

/-- The transcript text produced by applying updates in arrival order: each
text preceded by a single space (closed form of `pageTranscript`). -/
def arrivalText : List String → String
  | [] => ("")
  | u :: us => (" ") ++ u ++ arrivalText us

/-! ### The regeneration gate (src/app/components/AudioRecorder.tsx)

`sendAudioForTranscription` appends the chunk's transcript to
`pendingTranscript`, then calls `updateSOAPNote()` only when
`Date.now() - lastNoteUpdateTime.current > NOTE_UPDATE_INTERVAL`.
`updateSOAPNote` returns immediately when the pending transcript trims to
empty; otherwise it clears the pending transcript, records the start time,
and fires the (un-awaited) request.  No in-flight flag exists, and no timer
re-schedules a skipped update. -/

/-- How often to update the SOAP note (in milliseconds). -/
def NOTE_UPDATE_INTERVAL : Nat := 5000

/-- Scheduler-relevant state of the recorder component.  `requestStarts`
records the wall-clock times at which regeneration requests were issued. -/
structure SchedState where
  lastNoteUpdateTime : Nat
  pendingTranscript : String
  requestStarts : List Nat
deriving DecidableEq, Repr

/-- JavaScript truthiness test `!s.trim()`: true when the string has no
non-whitespace character. -/
def trimmedEmpty (s : String) : Bool := s.data.all isWs

/-- `updateSOAPNote()` as far as scheduling state is concerned: early
return when the pending transcript trims to empty, otherwise clear it,
stamp `lastNoteUpdateTime`, and start a request now. -/
def updateSOAPNoteStep (st : SchedState) (now : Nat) : SchedState :=
  if trimmedEmpty st.pendingTranscript then st
  else
    { lastNoteUpdateTime := now
    , pendingTranscript := ("")
    , requestStarts := st.requestStarts ++ [now] }

/-- The transcription-arrival handler `sendAudioForTranscription` (lines
288-305): skip falsy transcripts, append to the pending transcript, and
call `updateSOAPNote` only when the debounce window has elapsed since the
last request start. -/
def sendAudioStep (st : SchedState) (now : Nat) (transcriptText : String) : SchedState :=
  if transcriptText = "" then st
  else if st.lastNoteUpdateTime + NOTE_UPDATE_INTERVAL < now then
    updateSOAPNoteStep
      { st with pendingTranscript := st.pendingTranscript ++ (" ") ++ transcriptText } now
  else { st with pendingTranscript := st.pendingTranscript ++ (" ") ++ transcriptText }

/-- Run a recording session's transcription arrivals from the initial state
(`startRecording` stamps `lastNoteUpdateTime` with the session start time
`t0`). -/
def runSched (t0 : Nat) (events : List (Nat × String)) : SchedState :=
  events.foldl (fun st e => sendAudioStep st e.1 e.2)
    { lastNoteUpdateTime := t0, pendingTranscript := (""), requestStarts := [] }

/-- `stopRecording`'s final flush: it calls `updateSOAPNote` directly,
without consulting the debounce window. -/
def stopFlush (st : SchedState) (tstop : Nat) : SchedState :=
  updateSOAPNoteStep st tstop

/-- Number of requests in flight at time `u`, given each request started at
the listed time and lasts `dur` milliseconds (the code never awaits a
previous request before starting the next). -/
def activeCount (starts : List Nat) (dur u : Nat) : Nat :=
  (starts.filter (fun s => decide (s ≤ u) && decide (u < s + dur))).length

/-! ### Note validation/defaulting
(src/app/components/SimpleAudioRecorder.tsx, generateSOAPNote lines 249-265) -/

/-- Raw metadata as decoded from the oracle's JSON (any field may be
absent). -/
structure RawMetadata where
  patient_name : Option String
  clinician_name : Option String
  visit_datetime : Option String
  chief_complaint : Option String
  medications_list : Option (List String)
deriving DecidableEq, Repr

/-- A raw decoded SOAP document (any field may be absent;
`medications_list = none` also covers a present non-array value, which the
code's `Array.isArray` check discards). -/
structure RawSOAP where
  metadata : Option RawMetadata
  subjective : Option String
  objective : Option String
  assessment : Option String
  plan : Option String
  diff : Option (List String)
deriving DecidableEq, Repr

/-- JavaScript `v || d` for string fields: the default replaces a missing
or empty string. -/
def jsOrStr (v : Option String) (d : String) : String :=
  match v with
  | some s => if s = "" then d else s
  | none => d

/-- JavaScript `v || null` for string fields. -/
def jsOrNull (v : Option String) : Option String :=
  match v with
  | some s => if s = "" then none else some s
  | none => none

/-- The `validatedNote` object built in `generateSOAPNote`: every field is
defaulted so the committed note always has the full shape. -/
def validatedNote (soapNote : RawSOAP) (now : String) : SOAPNote :=
  { metadata :=
      { patient_name := jsOrNull (soapNote.metadata.bind (fun m => m.patient_name))
      , clinician_name := jsOrNull (soapNote.metadata.bind (fun m => m.clinician_name))
      , visit_datetime := jsOrStr (soapNote.metadata.bind (fun m => m.visit_datetime)) now
      , chief_complaint := jsOrNull (soapNote.metadata.bind (fun m => m.chief_complaint))
      , medications_list := (soapNote.metadata.bind (fun m => m.medications_list)).getD [] }
  , subjective := jsOrStr soapNote.subjective ("[No subjective information]")
  , objective := jsOrStr soapNote.objective ("[No objective information]")
  , assessment := jsOrStr soapNote.assessment ("[No assessment information]")
  , plan := jsOrStr soapNote.plan ("[No plan information]")
  , diff := soapNote.diff.getD [("Note generated")] }

/-- The client's commit step.  The previous note is sent to the oracle in
the request payload (AudioRecorder.tsx) but no local computation uses it:
the committed note is `validatedNote` of the oracle's raw document alone. -/
def commitNote (previous_note : Option SOAPNote) (raw : RawSOAP) (now : String) : SOAPNote :=
  validatedNote raw now

/-! ### Spec-modelled diff (for comparison only)

The spec's §4.6 describes a line-based diff computed locally by a
"NoteReconciler".  No such computation exists in the source — the `diff`
field is taken from the oracle's document.  The definitions below follow
the spec's words so the two behaviours can be compared. -/

/-- Split a character list at newline characters. -/
def splitLinesAux (acc : List Char) : List Char → List String
  | [] => [⟨acc.reverse⟩]
  | c :: cs =>
      if c = '\n' then (⟨acc.reverse⟩ : String) :: splitLinesAux [] cs
      else splitLinesAux (c :: acc) cs

/-- Split a section text into its lines. -/
def splitLines (s : String) : List String := splitLinesAux [] s.data

/-- Modelled from the spec: diff entries for one free-text section — every
line of the new section text absent (by exact match) from the old section
text, rendered as `section: line`. -/
def specSectionDiff (name oldText newText : String) : List String :=
  ((splitLines newText).filter
      (fun l => !((splitLines oldText).contains l))).map
    (fun l => name ++ (": ") ++ l)

/-- Modelled from the spec: the reconciler's diff over the four free-text
sections, or the fixed initial entry when there is no previous note. -/
def specNoteDiff (prev : Option SOAPNote) (newNote : SOAPNote) : List String :=
  match prev with
  | none => [("Initial SOAP note generated")]
  | some o =>
      specSectionDiff ("subjective") o.subjective newNote.subjective ++
      specSectionDiff ("objective") o.objective newNote.objective ++
      specSectionDiff ("assessment") o.assessment newNote.assessment ++
      specSectionDiff ("plan") o.plan newNote.plan

/-! ### POST /api/audio (src/app/api/audio/route.ts) -/

/-- The hard-coded chest-pain transcript returned with status 200 when no
Deepgram API key is configured. -/
def mockMedicalTranscript : String :=
  "The patient is a 45-year-old male presenting with chest pain for the past two days. He describes it as pressure-like and rates it 6 out of 10 in severity. Pain worsens with exertion and improves with rest. He denies radiation to jaw or arm. He reports mild shortness of breath. No history of heart disease, but has hypertension controlled with lisinopril. Vital signs are BP 130/85, heart rate 75, and temperature 98.6. Lungs are clear to auscultation."

/-- The canned transcript returned with status 200 when the Deepgram call
itself returns an error status. -/
def troubleTranscript : String :=
  "I\x27m having trouble processing your audio. Please check your API keys and try again."

/-- The canned transcript returned with status 200 when Deepgram's response
body cannot be parsed as JSON. -/
def parseErrorTranscript : String :=
  "Error processing transcription response. Check API keys and configuration."

/-- Outcome of the Deepgram call: a completed HTTP response (error status,
a `results`-shaped body, some other JSON body, or an unparsable body), or
the fetch itself rejecting (service unreachable) with the thrown error's
message. -/
inductive DeepgramOutcome where
  | errorStatus (status : Nat) (body : String)
  | resultsTranscript (t : String)
  | nonResultsJson (raw : String)
  | invalidJson
  | fetchRejected (details : String)
deriving DecidableEq, Repr

/-- Body of a POST /api/audio response.  `errDetails` is the outer catch's
body shape, carrying both an `error` message and a `details` string. -/
inductive AudioRespBody where
  | err (msg : String)
  | errDetails (msg details : String)
  | transcript (t : String) (warning : Option String)
  | passthrough (raw : String)
deriving DecidableEq, Repr

/-- The POST /api/audio handler: status code and body as a function of the
request size, the configured API key, and the Deepgram outcome.
`resultsTranscript t` is the Deepgram response shape
`results.channels[0].alternatives[0].transcript`, where `t` may be the
empty string (no speech).  A rejected fetch escapes the per-response
handling and reaches the handler's outer catch, which returns HTTP 500
with an error/details body; when no API key is configured no fetch is
attempted, so that branch ignores the Deepgram outcome. -/
def audioPost (audioByteLength : Nat) (apiKey : Option String)
    (deepgram : DeepgramOutcome) : Nat × AudioRespBody :=
  if audioByteLength = 0 then (400, .err ("No audio data received"))
  else
    match apiKey with
    | none => (200, .transcript mockMedicalTranscript none)
    | some _ =>
        match deepgram with
        | .errorStatus status body =>
            (200, .transcript troubleTranscript
              (some (("API Error: ") ++ toString status ++ (" - ") ++ body)))
        | .resultsTranscript t => (200, .transcript t none)
        | .nonResultsJson raw => (200, .passthrough raw)
        | .invalidJson => (200, .transcript parseErrorTranscript none)
        | .fetchRejected details =>
            (500, .errDetails ("Failed to process audio") details)

/-! ### Concrete inputs used by witnesses and counterexamples -/

/-- The spec's example document, as a single string (no surrounding
whitespace, so it starts with an opening brace and ends with a closing
brace). -/
def exampleDoc : String :=
  "\x7b\"metadata\":\x7b\x7d,\"subjective\":\"a\",\"objective\":\"b\",\"assessment\":\"c\",\"plan\":\"d\"\x7d"

/-- An arbitrary split of `exampleDoc` into token substrings (with an empty
token interleaved, as the stream may deliver). -/
def exampleTokens : List String :=
  [ "\x7b\"metadata\""
  , ":\x7b\x7d,\"subjective\":\"a\","
  , ""
  , "\"objective\":\"b\",\"assessment\":\"c\",\"plan\":\"d\""
  , "\x7d" ]

/-- A fixed timestamp used in concrete examples. -/
def exampleNow : String := "2025-01-01T00:00:00.000Z"

/-- Raw oracle document for the diff examples: assessment grew from two
lines to three, every other section unchanged, and the oracle supplied no
`diff` field. -/
def rawC8 : RawSOAP :=
  { metadata := none
  , subjective := some ("S")
  , objective := some ("O")
  , assessment := some ("A\nB\nC")
  , plan := some ("P")
  , diff := none }

/-- The previously committed note for the diff examples (assessment has two
lines). -/
def oldC8 : SOAPNote :=
  { metadata := defaultMetadata exampleNow
  , subjective := "S"
  , objective := "O"
  , assessment := "A\nB"
  , plan := "P"
  , diff := [] }

/-- A raw document with every field missing, for the defaulting witness. -/
def rawEmpty : RawSOAP :=
  { metadata := none, subjective := none, objective := none
  , assessment := none, plan := none, diff := none }

/-- Machine-state invariant that holds from the moment an opening brace has
been consumed: either a container is still open, or the top-level value is
finished, or the input is already rejected. -/
def inv (s : PState) : Prop :=
  s.stack ≠ [] ∨ s.mode = Mode.afterValue ∨ s.mode = Mode.dead

/-!
## Theorems

### JSON acceptor lemmas (towards claim C1)
-/

theorem step_dead (stk : List Frame) (c : Char) : step ⟨.dead, stk⟩ c = ⟨.dead, stk⟩ := rfl

theorem foldl_step_dead (cs : List Char) (stk : List Frame) :
    cs.foldl step ⟨.dead, stk⟩ = ⟨.dead, stk⟩ := by
  induction cs with
  | nil => rfl
  | cons c cs ih => simpa [step_dead] using ih

theorem accepts_dead (stk : List Frame) : accepts ⟨.dead, stk⟩ = false := by
  cases stk <;> rfl

theorem startValue_inv (stk : List Frame) (c : Char) (h : stk ≠ []) :
    inv (startValue stk c) := by
  unfold startValue inv
  split_ifs <;> simp [h]

theorem afterStep_inv (stk : List Frame) (c : Char) : inv (afterStep stk c) := by
  unfold afterStep closeStep inv
  rcases stk with _ | ⟨f, rest⟩
  · split_ifs <;> simp
  · cases f <;> split_ifs <;> simp

theorem step_inv (s : PState) (c : Char) (h : inv s) : inv (step s c) := by
  obtain ⟨m, stk⟩ := s
  cases m with
  | dead => simp [step, inv]
  | afterValue => exact afterStep_inv stk c
  | value =>
    have hne : stk ≠ [] := by rcases h with h | h | h; exacts [h, by simp at h, by simp at h]
    simp only [step]
    split_ifs with hws
    · exact Or.inl hne
    · exact startValue_inv stk c hne
  | objFirst =>
    have hne : stk ≠ [] := by rcases h with h | h | h; exacts [h, by simp at h, by simp at h]
    simp only [step]
    split_ifs with h1 h2 h3
    · exact Or.inl hne
    · exact Or.inl hne
    · rcases stk with _ | ⟨f, rest⟩
      · exact absurd rfl hne
      · cases f <;> simp [inv]
    · simp [inv]
  | objKey =>
    have hne : stk ≠ [] := by rcases h with h | h | h; exacts [h, by simp at h, by simp at h]
    simp only [step]
    split_ifs <;> simp [inv, hne]
  | colon =>
    have hne : stk ≠ [] := by rcases h with h | h | h; exacts [h, by simp at h, by simp at h]
    simp only [step]
    split_ifs <;> simp [inv, hne]
  | arrFirst =>
    have hne : stk ≠ [] := by rcases h with h | h | h; exacts [h, by simp at h, by simp at h]
    simp only [step]
    split_ifs with h1 h2
    · exact Or.inl hne
    · rcases stk with _ | ⟨f, rest⟩
      · exact absurd rfl hne
      · cases f <;> simp [inv]
    · exact startValue_inv stk c hne
  | keyStr st =>
    have hne : stk ≠ [] := by rcases h with h | h | h; exacts [h, by simp at h, by simp at h]
    simp only [step]
    rcases hst : strTrans st c with _ | ⟨_ | st'⟩ <;> simp [inv, hne]
  | valStr st =>
    have hne : stk ≠ [] := by rcases h with h | h | h; exacts [h, by simp at h, by simp at h]
    simp only [step]
    rcases hst : strTrans st c with _ | ⟨_ | st'⟩ <;> simp [inv, hne]
  | num st =>
    have hne : stk ≠ [] := by rcases h with h | h | h; exacts [h, by simp at h, by simp at h]
    simp only [step]
    rcases hnt : numTrans st c with _ | st'
    · split_ifs with hacc
      · exact afterStep_inv stk c
      · simp [inv]
    · simp [inv, hne]
  | lit rest =>
    have hne : stk ≠ [] := by rcases h with h | h | h; exacts [h, by simp at h, by simp at h]
    simp only [step]
    split
    · simp [inv]
    · split_ifs <;> simp [inv, hne]

theorem foldl_step_inv (cs : List Char) (s : PState) (h : inv s) :
    inv (cs.foldl step s) := by
  induction cs generalizing s with
  | nil => exact h
  | cons c cs ih => exact ih _ (step_inv s c h)

theorem accepts_inv (s : PState) (h : inv s) (ha : accepts s = true) :
    s = ⟨.afterValue, []⟩ := by
  obtain ⟨m, stk⟩ := s
  cases m <;> cases stk <;> simp_all [accepts, inv]

theorem step_done_ws (c : Char) (h : isWs c = true) :
    step ⟨.afterValue, []⟩ c = ⟨.afterValue, []⟩ := by
  simp [step, afterStep, h]

theorem step_done_not_ws (c : Char) (h : isWs c = false) :
    step ⟨.afterValue, []⟩ c = ⟨.dead, []⟩ := by
  simp [step, afterStep, closeStep, h]

theorem done_fold_ws (cs : List Char)
    (h : accepts (cs.foldl step ⟨.afterValue, []⟩) = true) :
    ∀ c ∈ cs, isWs c = true := by
  induction cs with
  | nil => simp
  | cons c cs ih =>
    cases hws : isWs c with
    | true =>
      rw [List.foldl_cons, step_done_ws c hws] at h
      intro x hx
      rcases List.mem_cons.1 hx with rfl | hx'
      · exact hws
      · exact ih h x hx'
    | false =>
      rw [List.foldl_cons, step_done_not_ws c hws, foldl_step_dead, accepts_dead] at h
      exact absurd h (by simp)

theorem mem_of_getLast?_eq {α : Type} {l : List α} {a : α}
    (h : l.getLast? = some a) : a ∈ l := by
  induction l with
  | nil => simp at h
  | cons x xs ih =>
    cases xs with
    | nil =>
      rw [List.getLast?_singleton] at h
      simp [Option.some.inj h]
    | cons y ys =>
      rw [List.getLast?_cons_cons] at h
      exact List.mem_cons_of_mem _ (ih h)

theorem strict_prefix_rejected (q1 tail : List Char)
    (hlast : tail.getLast? = some '\x7d')
    (hok : accepts (runScan ('\x7b' :: (q1 ++ tail))) = true) :
    accepts (runScan ('\x7b' :: q1)) = false := by
  have hstep1 : step initSt '\x7b' = ⟨.objFirst, [.objF]⟩ := by decide
  have hrun : ∀ l : List Char,
      runScan ('\x7b' :: l) = l.foldl step ⟨.objFirst, [.objF]⟩ := by
    intro l
    unfold runScan
    rw [List.foldl_cons, hstep1]
  cases hq : accepts (runScan ('\x7b' :: q1)) with
  | false => rfl
  | true =>
    exfalso
    have hinv : inv (q1.foldl step ⟨.objFirst, [.objF]⟩) :=
      foldl_step_inv q1 _ (Or.inl (by simp))
    rw [hrun] at hq
    have hdone := accepts_inv _ hinv hq
    have hsplit : runScan ('\x7b' :: (q1 ++ tail)) = tail.foldl step ⟨.afterValue, []⟩ := by
      rw [hrun, List.foldl_append, hdone]
    rw [hsplit] at hok
    have hmem : ('\x7d' : Char) ∈ tail := mem_of_getLast?_eq hlast
    have := done_fold_ws tail hok _ hmem
    exact absurd this (by decide)

theorem string_empty_iff_data {s : String} : s = "" ↔ s.data = [] := by
  constructor
  · intro h; rw [h]
  · intro h; apply String.ext; rw [h]

theorem json_prefix_rejected (s b r : String)
    (hsr : b ++ r = s) (hr : r ≠ "")
    (hhead : s.data.head? = some '\x7b')
    (hlastc : s.data.getLast? = some '\x7d')
    (hok : jsonOk s = true) : jsonOk b = false := by
  have hdata : b.data ++ r.data = s.data := by rw [← String.data_append, hsr]
  have hrd : r.data ≠ [] := fun h0 => hr (string_empty_iff_data.2 h0)
  cases hbd : b.data with
  | nil =>
    unfold jsonOk runScan
    rw [hbd]
    rfl
  | cons c q1 =>
    have hc : c = '\x7b' := by
      have hhd : s.data.head? = some c := by rw [← hdata, hbd]; rfl
      rw [hhead] at hhd
      exact (Option.some.inj hhd).symm
    subst hc
    have hsd : s.data = '\x7b' :: (q1 ++ r.data) := by
      rw [← hdata, hbd]
      rfl
    have hlast_tail : r.data.getLast? = some '\x7d' := by
      have h1 := hlastc
      rw [hsd, show ('\x7b' :: (q1 ++ r.data)) = ('\x7b' :: q1) ++ r.data from rfl,
        List.getLast?_append_of_ne_nil _ hrd] at h1
      exact h1
    have hok' : accepts (runScan ('\x7b' :: (q1 ++ r.data))) = true := by
      rw [← hsd]
      exact hok
    unfold jsonOk
    rw [hbd]
    exact strict_prefix_rejected q1 r.data hlast_tail hok'

theorem foldl_append_extends (toks : List String) :
    ∀ buf : String, ∃ r : String, buf ++ r = toks.foldl (fun a b => a ++ b) buf := by
  induction toks with
  | nil => exact fun buf => ⟨"", String.append_empty buf⟩
  | cons t ts ih =>
    intro buf
    rcases ih (buf ++ t) with ⟨r, hr⟩
    refine ⟨t ++ r, ?_⟩
    rw [← String.append_assoc]
    simpa using hr

theorem assemble_run (s : String) (hok : jsonOk s = true)
    (hhead : s.data.head? = some '\x7b') (hlast : s.data.getLast? = some '\x7d') :
    ∀ (toks : List String) (buf : String) (cands : List String),
      toks.foldl (fun a b => a ++ b) buf = s →
      (toks.foldl assembleStep (buf, cands)).2
        = cands ++ (if buf = s then [] else [s]) := by
  intro toks
  induction toks with
  | nil =>
    intro buf cands h
    simp only [List.foldl_nil] at h ⊢
    rw [if_pos h]
    simp
  | cons t ts ih =>
    intro buf cands h
    rw [List.foldl_cons] at h
    by_cases ht : t = ""
    · subst ht
      rw [String.append_empty] at h
      rw [List.foldl_cons]
      have hstep : assembleStep (buf, cands) "" = (buf, cands) := by
        simp [assembleStep]
      rw [hstep]
      exact ih buf cands h
    · have hbufne : buf ≠ s := by
        rcases foldl_append_extends ts (buf ++ t) with ⟨r, hr⟩
        rw [h] at hr
        intro he
        subst he
        have hdl := congrArg String.data hr
        rw [String.data_append, String.data_append] at hdl
        have hlen := congrArg List.length hdl
        simp only [List.length_append] at hlen
        have htd : t.data = [] := List.length_eq_zero.1 (by omega)
        exact ht (string_empty_iff_data.2 htd)
      rw [List.foldl_cons]
      by_cases heq : buf ++ t = s
      · have hj : jsonOk (buf ++ t) = true := by rw [heq]; exact hok
        have hstep : assembleStep (buf, cands) t = (buf ++ t, cands ++ [buf ++ t]) := by
          simp [assembleStep, ht, hj]
        rw [hstep, heq]
        have h2 := h
        rw [heq] at h2
        rw [ih s (cands ++ [s]) h2]
        simp [if_neg hbufne]
      · rcases foldl_append_extends ts (buf ++ t) with ⟨r, hr⟩
        rw [h] at hr
        have hrne : r ≠ "" := by
          intro h0
          subst h0
          rw [String.append_empty] at hr
          exact heq hr
        have hj : jsonOk (buf ++ t) = false :=
          json_prefix_rejected s (buf ++ t) r hr hrne hhead hlast hok
        have hstep : assembleStep (buf, cands) t = (buf ++ t, cands) := by
          simp [assembleStep, ht, hj]
        rw [hstep, ih (buf ++ t) cands h]
        simp [if_neg heq, if_neg hbufne]

/-- Claim C1: the streaming document assembler of the GET /api/soap token
loop appends each token to the buffer, attempts a parse after each token,
emits the buffer as a candidate exactly when the parse succeeds and absorbs
failures silently; hence for any token stream whose concatenation is a
single well-formed JSON object (first character an opening brace, last a
closing brace) split into arbitrary substrings, it yields exactly one
candidate — the full document — and no candidate for any strict prefix. -/
theorem assembler_emits_unique_candidate (s : String) (tokens : List String)
    (hjoin : tokens.foldl (fun a b => a ++ b) ("") = s)
    (hok : jsonOk s = true)
    (hhead : s.data.head? = some '\x7b')
    (hlast : s.data.getLast? = some '\x7d') :
    candidates tokens = [s] := by
  have h0 : ("" : String) ≠ s := by
    intro he
    rw [← he] at hhead
    simp at hhead
  unfold candidates
  rw [assemble_run s hok hhead hlast tokens ("") [] hjoin]
  simp [if_neg h0]

/-- Witness for C1 at the spec's example document, split into arbitrary
substrings with an empty token interleaved. -/
theorem assembler_emits_unique_candidate_witness :
    candidates exampleTokens = [exampleDoc] :=
  assembler_emits_unique_candidate exampleDoc exampleTokens
    (by decide) (by decide) (by decide) (by decide)

/-! ### Claim C2: outcome of failed generation attempts -/

/-- Claim C2 (counterexample): with a non-empty transcript and a configured
key, an oracle failure makes POST /api/soap return HTTP 200 with the
hard-coded fallback note (a fabricated chest-pain narrative) — a
substitute note, not any distinct "generation failed" outcome — and makes
the GET stream emit the placeholder fallback note as an ordinary data
event. -/
theorem generation_failure_counterexample :
    soapPost (some ("t")) (some ("k")) none exampleNow .failure
      = (200, SoapBody.note (postFallbackNote none exampleNow))
    ∧ soapStreamEvents exampleNow .failure
      = [SSE.dataNote (getFallbackNote exampleNow), SSE.done]
    ∧ ¬ ∃ msg, (soapPost (some ("t")) (some ("k")) none exampleNow .failure).2
        = SoapBody.error msg := by
  refine ⟨by decide, rfl, ?_⟩
  rintro ⟨msg, hmsg⟩
  have h1 : (soapPost (some ("t")) (some ("k")) none exampleNow .failure).2
      = SoapBody.note (postFallbackNote none exampleNow) := by decide
  rw [h1] at hmsg
  exact SoapBody.noConfusion hmsg

/-- Claim C2 (amended): on a failed generation attempt (oracle unreachable
or erroring) with a non-empty transcript and a configured key, the POST
endpoint does not deliver a failure outcome: it returns HTTP 200 carrying
the fabricated fallback note in place of a generated one, so the caller
commits substitute content rather than keeping only the previous note. -/
theorem soap_failure_returns_fallback_note (t k : String)
    (metadata : Option SoapMetadata) (now : String) (ht : t ≠ "") :
    soapPost (some t) (some k) metadata now .failure
      = (200, SoapBody.note (postFallbackNote metadata now)) := by
  simp [soapPost, isFalsyStr, ht]

/-- Witness for the amended C2. -/
theorem soap_failure_returns_fallback_note_witness :
    soapPost (some ("t")) (some ("key")) none exampleNow .failure
      = (200, SoapBody.note (postFallbackNote none exampleNow)) :=
  soap_failure_returns_fallback_note ("t") ("key") none exampleNow (by decide)

/-! ### Claims C3 and C7: transcript accumulation -/

theorem pageTranscript_arrival_aux (updates : List String) :
    ∀ acc : String, updates.foldl handleTranscriptUpdate acc = acc ++ arrivalText updates := by
  induction updates with
  | nil => intro acc; simp [arrivalText, String.append_empty]
  | cons u us ih =>
    intro acc
    rw [List.foldl_cons, ih]
    simp [arrivalText, handleTranscriptUpdate, String.append_assoc]

/-- Claim C3 (counterexample): delivering the segments (index 0, "a") and
(index 1, "b") in arrival order 1, 0 produces " b a", while the spec's
index-ordered, space-joined, trimmed text is "a b" — the accumulator is
arrival-order dependent and performs no index reordering. -/
theorem transcript_order_counterexample :
    pageTranscript [("b"), ("a")] = (" b a")
    ∧ specCurrentText [(1, ("b")), (0, ("a"))] = ("a b")
    ∧ pageTranscript [("b"), ("a")] ≠ specCurrentText [(1, ("b")), (0, ("a"))] := by
  refine ⟨by decide, by decide, by decide⟩

/-- Claim C3 (amended): the transcript state is the concatenation of the
segment texts in arrival order, each preceded by a single space, with no
sequence-index reordering and no trimming; the result therefore depends on
the arrival order. -/
theorem transcript_is_arrival_order_concat (updates : List String) :
    pageTranscript updates = arrivalText updates := by
  unfold pageTranscript
  rw [pageTranscript_arrival_aux]
  simp

/-- Claim C7 (counterexample): re-applying the already-applied segment
text "a" is not a no-op — the text grows from " a" to " a a". -/
theorem idempotence_counterexample :
    pageTranscript [("a"), ("a")] ≠ pageTranscript [("a")] := by decide

/-- Claim C7 (amended): applying any transcript segment — including one
already applied — always appends it again and strictly changes the text;
there is no idempotence and no fail-fast check for a conflicting
re-application. -/
theorem reapplication_appends_again (acc t : String) :
    handleTranscriptUpdate acc t ≠ acc := by
  intro h
  have h2 := congrArg String.length h
  have h3 : (" " : String).length = 1 := rfl
  simp only [handleTranscriptUpdate, String.length_append, h3] at h2
  omega

/-! ### Claims C4 and C5: the regeneration gate -/

theorem sched_step_inv (st : SchedState) (now : Nat) (t : String)
    (h1 : List.Chain' (fun a b => a + NOTE_UPDATE_INTERVAL < b) st.requestStarts)
    (h2 : st.requestStarts = [] ∨ st.requestStarts.getLast? = some st.lastNoteUpdateTime) :
    List.Chain' (fun a b => a + NOTE_UPDATE_INTERVAL < b) (sendAudioStep st now t).requestStarts
    ∧ ((sendAudioStep st now t).requestStarts = []
        ∨ (sendAudioStep st now t).requestStarts.getLast?
            = some (sendAudioStep st now t).lastNoteUpdateTime) := by
  unfold sendAudioStep updateSOAPNoteStep
  split_ifs with ht hgate htrim
  · exact ⟨h1, h2⟩
  · exact ⟨h1, h2⟩
  · constructor
    · refine List.chain'_append.2 ⟨h1, List.chain'_singleton _, ?_⟩
      intro x hx y hy
      rcases h2 with h2 | h2
      · rw [h2] at hx; simp at hx
      · rw [h2] at hx
        simp only [List.head?_cons, Option.mem_def, Option.some.injEq] at hx hy
        subst hx
        subst hy
        exact hgate
    · right
      simp [List.getLast?_concat]
  · exact ⟨h1, h2⟩

theorem sched_fold_inv (events : List (Nat × String)) (st : SchedState)
    (h1 : List.Chain' (fun a b => a + NOTE_UPDATE_INTERVAL < b) st.requestStarts)
    (h2 : st.requestStarts = [] ∨ st.requestStarts.getLast? = some st.lastNoteUpdateTime) :
    List.Chain' (fun a b => a + NOTE_UPDATE_INTERVAL < b)
      (events.foldl (fun st e => sendAudioStep st e.1 e.2) st).requestStarts := by
  induction events generalizing st with
  | nil => exact h1
  | cons e es ih =>
    rcases sched_step_inv st e.1 e.2 h1 h2 with ⟨g1, g2⟩
    exact ih _ g1 g2

/-- Claim C4 (counterexample): with the session started at time 0,
transcript growth at 6000 ms and 12000 ms starts requests at both times
(each gate check passes), and if each request takes 10000 ms, two requests
are in flight simultaneously at time 12000 — the code has no in-flight
token and never defers to a request's completion. -/
theorem single_flight_counterexample :
    (runSched 0 [(6000, ("hello")), (12000, ("world"))]).requestStarts = [6000, 12000]
    ∧ 1 < activeCount [6000, 12000] 10000 12000 := by
  exact ⟨by decide, by decide⟩

/-- Claim C4 (amended): the scheduler enforces only a wall-clock spacing
gate, not an at-most-one-in-flight invariant: a regeneration desired while
the debounce window is still open performs no scheduling at all — the text
is merely appended to the pending buffer (to ride along with a later
request) — and nothing prevents a new request from starting while a
previous one is still in flight. -/
theorem regeneration_dropped_within_window (st : SchedState) (now : Nat) (t : String)
    (ht : t ≠ "") (hwin : ¬ st.lastNoteUpdateTime + NOTE_UPDATE_INTERVAL < now) :
    sendAudioStep st now t
      = { st with pendingTranscript := st.pendingTranscript ++ (" ") ++ t } := by
  simp [sendAudioStep, ht, hwin]

/-- Witness for the amended C4. -/
theorem regeneration_dropped_within_window_witness :
    sendAudioStep ⟨0, (""), []⟩ 1000 ("x")
      = { (⟨0, (""), []⟩ : SchedState) with
            pendingTranscript := ("") ++ (" ") ++ ("x") } :=
  regeneration_dropped_within_window ⟨0, (""), []⟩ 1000 ("x") (by decide) (by decide)

/-- Claim C5: any two successive regeneration requests issued by the
transcript-growth path of a session start at least `NOTE_UPDATE_INTERVAL`
(5000 ms) apart; the only further request a session issues is the single
forced flush on stop, which bypasses the window. -/
theorem debounce_floor (t0 : Nat) (events : List (Nat × String)) (tstop : Nat) :
    List.Chain' (fun a b => a + NOTE_UPDATE_INTERVAL ≤ b) (runSched t0 events).requestStarts
    ∧ ((stopFlush (runSched t0 events) tstop).requestStarts
          = (runSched t0 events).requestStarts
        ∨ (stopFlush (runSched t0 events) tstop).requestStarts
          = (runSched t0 events).requestStarts ++ [tstop]) := by
  constructor
  · have h := sched_fold_inv events
      { lastNoteUpdateTime := t0, pendingTranscript := (""), requestStarts := [] }
      List.chain'_nil (Or.inl rfl)
    exact List.Chain'.imp (fun a b hab => Nat.le_of_lt hab) h
  · unfold stopFlush updateSOAPNoteStep
    split_ifs
    · exact Or.inl rfl
    · exact Or.inr rfl

/-! ### Claim C6: note validation and defaulting -/

theorem jsOrStr_ne_empty (v : Option String) (d : String) (hd : d ≠ "") :
    jsOrStr v d ≠ "" := by
  rcases v with _ | s
  · simpa [jsOrStr] using hd
  · simp only [jsOrStr]
    split_ifs with h
    · exact hd
    · exact h

/-- Claim C6: validation/defaulting always commits a fully-populated note:
a raw document without `medications_list` commits `medications_list = []`,
a raw document without `subjective` commits the bracketed placeholder, and
none of the four free-text sections of a committed note is ever the empty
string. -/
theorem validation_defaults (raw : RawSOAP) (now : String) :
    ((raw.metadata.bind (fun m => m.medications_list)) = none
        → (validatedNote raw now).metadata.medications_list = [])
    ∧ (raw.subjective = none
        → (validatedNote raw now).subjective = ("[No subjective information]"))
    ∧ (validatedNote raw now).subjective ≠ ""
    ∧ (validatedNote raw now).objective ≠ ""
    ∧ (validatedNote raw now).assessment ≠ ""
    ∧ (validatedNote raw now).plan ≠ "" := by
  refine ⟨?_, ?_, ?_, ?_, ?_, ?_⟩
  · intro h; simp [validatedNote, h]
  · intro h; simp [validatedNote, h, jsOrStr]
  · exact jsOrStr_ne_empty _ _ (by decide)
  · exact jsOrStr_ne_empty _ _ (by decide)
  · exact jsOrStr_ne_empty _ _ (by decide)
  · exact jsOrStr_ne_empty _ _ (by decide)

/-- Witness for C6 at a raw document with every field missing. -/
theorem validation_defaults_witness :
    (validatedNote rawEmpty exampleNow).metadata.medications_list = []
    ∧ (validatedNote rawEmpty exampleNow).subjective = ("[No subjective information]") := by
  have h := validation_defaults rawEmpty exampleNow
  exact ⟨h.1 rfl, h.2.1 rfl⟩

/-! ### Claim C8: the diff of a committed note -/

/-- Claim C8 (counterexample): with the old assessment "A\nB" and the new
raw assessment "A\nB\nC" but no oracle-supplied diff, the committed diff is
the fixed entry list ["Note generated"], not the spec's line diff
["assessment: C"] — no local diff over the previous note is computed. -/
theorem diff_counterexample :
    (validatedNote rawC8 exampleNow).diff = [("Note generated")]
    ∧ specNoteDiff (some oldC8) (validatedNote rawC8 exampleNow) = [("assessment: C")]
    ∧ (validatedNote rawC8 exampleNow).diff
        ≠ specNoteDiff (some oldC8) (validatedNote rawC8 exampleNow) := by
  exact ⟨rfl, by decide, by decide⟩

/-- Claim C8 (amended): the committed note's diff is copied verbatim from
the oracle's raw document (defaulting to ["Note generated"] when absent or
not an array) and is independent of the previous note; no local line-based
diff exists, and the entry "Initial SOAP note generated" appears only as
the fixed diff of the server-side fallback notes. -/
theorem committed_diff_ignores_previous_note (p1 p2 : Option SOAPNote)
    (raw : RawSOAP) (now : String) :
    commitNote p1 raw now = commitNote p2 raw now
    ∧ (commitNote p1 raw now).diff = raw.diff.getD [("Note generated")]
    ∧ (getFallbackNote now).diff = [("Initial SOAP note generated")]
    ∧ (postFallbackNote none now).diff = [("Initial SOAP note generated")] :=
  ⟨rfl, rfl, rfl, rfl⟩

/-! ### Claims C9 and C10: the transcription endpoint -/

/-- Claim C9 (counterexample): a Deepgram error status (401 Unauthorized)
is returned to the caller as HTTP 200 with a canned apology presented in
the `transcript` field — a failure reported in the shape of a successful
transcription, with no typed failure outcome. -/
theorem transcription_failure_counterexample :
    audioPost 1024 (some ("key")) (.errorStatus 401 ("Unauthorized"))
      = (200, AudioRespBody.transcript troubleTranscript
          (some ("API Error: 401 - Unauthorized")))
    ∧ ¬ ∃ msg, (audioPost 1024 (some ("key")) (.errorStatus 401 ("Unauthorized"))).2
        = AudioRespBody.err msg := by
  constructor
  · decide
  · rintro ⟨msg, hmsg⟩
    have h1 : (audioPost 1024 (some ("key")) (.errorStatus 401 ("Unauthorized"))).2
        = AudioRespBody.transcript troubleTranscript
            (some ("API Error: 401 - Unauthorized")) := by decide
    rw [h1] at hmsg
    exact AudioRespBody.noConfusion hmsg

/-- Claim C9 (amended): for a non-empty audio chunk with a configured key,
no typed ServiceUnavailable/InvalidAudio/AuthError outcome exists; instead,
failures of a completed Deepgram response are masked as HTTP 200 canned
transcripts — an apology transcript (plus a warning) for an error status,
an error-text transcript for an unparsable response — while a rejected
Deepgram fetch (service unreachable) escapes to the outer catch and yields
HTTP 500 with a generic error/details body; an empty recognized transcript
is returned as an ordinary 200 result, and an empty request body produces
400. -/
theorem audio_failures_masked_as_success (n : Nat) (k : String) (status : Nat)
    (body t d : String) (hn : n ≠ 0) :
    audioPost n (some k) (.errorStatus status body)
      = (200, .transcript troubleTranscript
          (some (("API Error: ") ++ toString status ++ (" - ") ++ body)))
    ∧ audioPost n (some k) (.resultsTranscript t) = (200, .transcript t none)
    ∧ audioPost n (some k) .invalidJson = (200, .transcript parseErrorTranscript none)
    ∧ (∀ dg : DeepgramOutcome,
        audioPost 0 (some k) dg = (400, .err ("No audio data received")))
    ∧ audioPost n (some k) (.fetchRejected d)
        = (500, .errDetails ("Failed to process audio") d) := by
  refine ⟨?_, ?_, ?_, ?_, ?_⟩
  · simp [audioPost, hn]
  · simp [audioPost, hn]
  · simp [audioPost, hn]
  · intro dg; simp [audioPost]
  · simp [audioPost, hn]

/-- Witness for the amended C9: empty recognized speech is a valid 200
result with an empty transcript. -/
theorem audio_failures_masked_as_success_witness :
    audioPost 4 (some ("k")) (.resultsTranscript ("")) = (200, .transcript ("") none) :=
  (audio_failures_masked_as_success 4 ("k") 500 ("oops") ("") ("boom") (by decide)).2.1

/-- Claim C10: POST /api/audio with a non-empty body and no
`DEEPGRAM_API_KEY` configured returns HTTP 200 carrying the fixed
fabricated chest-pain transcript, whatever the (never-contacted) service
would have done; the status code is the same 200 a real transcription
returns, so the caller cannot distinguish the fabricated content by status
code. -/
theorem missing_key_returns_fabricated_transcript (n : Nat) (dg : DeepgramOutcome)
    (k t : String) (hn : n ≠ 0) :
    audioPost n none dg = (200, .transcript mockMedicalTranscript none)
    ∧ (audioPost n none dg).1 = (audioPost n (some k) (.resultsTranscript t)).1 := by
  constructor
  · simp [audioPost, hn]
  · simp [audioPost, hn]

/-- Witness for C10. -/
theorem missing_key_returns_fabricated_transcript_witness :
    audioPost 1024 none .invalidJson = (200, .transcript mockMedicalTranscript none) :=
  (missing_key_returns_fabricated_transcript 1024 .invalidJson ("k") ("x") (by decide)).1

end Scribe
